import Mathlib

/-!
Verification of the cuboid mesh generator (`src/cuboid.rs` of `glium_shapes`).

The Rust code works on `f32`; this development is an exact-arithmetic shallow
embedding over `ℚ`.  All matrix/vector operations used by the source
(`cgmath::Matrix4`/`Matrix3`/`Vector4`/`Vector3`, column-major) are translated
field by field.  The single transcendental primitive the source relies on,
`f32::sqrt` (inside `normalize`), is modelled by `ratSqrt`, which is exact on
rationals whose square root is rational (the only values at which the claims
below exercise it) and returns `0` elsewhere.  The `sin`/`cos` of the rotation
constructors are modelled by an uninterpreted `Trig` environment, since the
algebraic claims about the builder do not depend on their values.
-/

namespace GliumShapes

/-- Modelled from the spec: the crate's error type lives in `errors.rs`, which
is not part of the provided sources.  The spec says the only failure kind is a
resource-creation failure reported by the GPU collaborator; the vertex-only
path never constructs it, so a single opaque constructor suffices. -/
inductive ShapeCreationError where
  | resourceCreationFailure : ShapeCreationError
deriving DecidableEq, Repr

/-- `cgmath::Vector3<f32>`, modelled over `ℚ`. -/
@[ext]
structure Vector3 where
  x : ℚ
  y : ℚ
  z : ℚ
deriving DecidableEq, Repr, Inhabited

/-- `cgmath::Vector4<f32>`, modelled over `ℚ`. -/
@[ext]
structure Vector4 where
  x : ℚ
  y : ℚ
  z : ℚ
  w : ℚ
deriving DecidableEq, Repr, Inhabited

/-- `cgmath::Matrix3<f32>`: three columns, as in cgmath's column-major layout. -/
@[ext]
structure Matrix3 where
  x : Vector3
  y : Vector3
  z : Vector3
deriving DecidableEq, Repr, Inhabited

/-- `cgmath::Matrix4<f32>`: four columns, as in cgmath's column-major layout. -/
@[ext]
structure Matrix4 where
  x : Vector4
  y : Vector4
  z : Vector4
  w : Vector4
deriving DecidableEq, Repr, Inhabited

def Vector3.add (a b : Vector3) : Vector3 := ⟨a.x + b.x, a.y + b.y, a.z + b.z⟩

def Vector3.sub (a b : Vector3) : Vector3 := ⟨a.x - b.x, a.y - b.y, a.z - b.z⟩

/-- Scalar multiplication `v * s` on `cgmath::Vector3`. -/
def Vector3.smul (s : ℚ) (v : Vector3) : Vector3 := ⟨v.x * s, v.y * s, v.z * s⟩

/-- `cgmath::Vector3::dot`. -/
def Vector3.dot (a b : Vector3) : ℚ := a.x * b.x + a.y * b.y + a.z * b.z

/-- `cgmath::Vector3::cross`. -/
def Vector3.cross (a b : Vector3) : Vector3 :=
  ⟨a.y * b.z - a.z * b.y, a.z * b.x - a.x * b.z, a.x * b.y - a.y * b.x⟩

def Vector4.add (a b : Vector4) : Vector4 :=
  ⟨a.x + b.x, a.y + b.y, a.z + b.z, a.w + b.w⟩

/-- Scalar multiplication `v * s` on `cgmath::Vector4`. -/
def Vector4.smul (s : ℚ) (v : Vector4) : Vector4 :=
  ⟨v.x * s, v.y * s, v.z * s, v.w * s⟩

/-- `cgmath::Vector4::truncate`: drop the `w` component. -/
def Vector4.truncate (v : Vector4) : Vector3 := ⟨v.x, v.y, v.z⟩

/-- Model of `f32::abs` over `ℚ` (agrees with `|·|`; kept as an explicit
branch so that concrete instances evaluate by `decide`). -/
def ratAbs (q : ℚ) : ℚ := if q < 0 then -q else q

/-- Exact-arithmetic model of `f32::sqrt`: the rational square root when it
exists, `0` otherwise.  Every claim below only ever evaluates it at rationals
that are perfect squares. -/
def ratSqrt (q : ℚ) : ℚ :=
  if 0 ≤ q.num ∧ (Nat.sqrt q.num.toNat) ^ 2 = q.num.toNat ∧ (Nat.sqrt q.den) ^ 2 = q.den
  then (Nat.sqrt q.num.toNat : ℚ) / (Nat.sqrt q.den : ℚ)
  else 0

/-- `cgmath::InnerSpace::magnitude`: `sqrt(self.dot(self))`. -/
def Vector3.magnitude (v : Vector3) : ℚ := ratSqrt (v.dot v)

/-- `cgmath::InnerSpace::normalize`: `self * (1 / self.magnitude())`. -/
def Vector3.normalize (v : Vector3) : Vector3 := v.smul (1 / v.magnitude)

/-- `Matrix3::from_cols`. -/
def Matrix3.from_cols (x y z : Vector3) : Matrix3 := ⟨x, y, z⟩

def Matrix3.identity : Matrix3 := ⟨⟨1, 0, 0⟩, ⟨0, 1, 0⟩, ⟨0, 0, 1⟩⟩

/-- `Matrix3::transpose`. -/
def Matrix3.transpose (m : Matrix3) : Matrix3 :=
  ⟨⟨m.x.x, m.y.x, m.z.x⟩, ⟨m.x.y, m.y.y, m.z.y⟩, ⟨m.x.z, m.y.z, m.z.z⟩⟩

/-- `Matrix3 * Vector3`: linear combination of the columns. -/
def Matrix3.mulVec (m : Matrix3) (v : Vector3) : Vector3 :=
  ((m.x.smul v.x).add (m.y.smul v.y)).add (m.z.smul v.z)

/-- `Matrix3 * Matrix3`. -/
def Matrix3.mul (a b : Matrix3) : Matrix3 :=
  ⟨a.mulVec b.x, a.mulVec b.y, a.mulVec b.z⟩

/-- `cgmath::SquareMatrix::determinant` for `Matrix3`:
`self.x.cross(self.y).dot(self.z)`. -/
def Matrix3.determinant (m : Matrix3) : ℚ := (m.x.cross m.y).dot m.z

/-- The matrix produced by the `Some` branch of `cgmath`'s `Matrix3::invert`:
the cross-product adjugate columns times `1 / det`, transposed. -/
def Matrix3.invertedOf (m : Matrix3) : Matrix3 :=
  (Matrix3.from_cols ((m.y.cross m.z).smul (1 / m.determinant))
                     ((m.z.cross m.x).smul (1 / m.determinant))
                     ((m.x.cross m.y).smul (1 / m.determinant))).transpose

/-- `cgmath::SquareMatrix::invert` for `Matrix3`: `None` when the determinant
is zero (the exact-arithmetic reading of cgmath's `ulps_eq!(det, zero)` test),
otherwise the cross-product adjugate divided by the determinant, transposed. -/
def Matrix3.invert (m : Matrix3) : Option Matrix3 :=
  if m.determinant = 0 then none else some m.invertedOf

def Matrix4.identity : Matrix4 :=
  ⟨⟨1, 0, 0, 0⟩, ⟨0, 1, 0, 0⟩, ⟨0, 0, 1, 0⟩, ⟨0, 0, 0, 1⟩⟩

/-- `Matrix4 * Vector4`: linear combination of the columns. -/
def Matrix4.mulVec (m : Matrix4) (v : Vector4) : Vector4 :=
  (((m.x.smul v.x).add (m.y.smul v.y)).add (m.z.smul v.z)).add (m.w.smul v.w)

/-- `Matrix4 * Matrix4`. -/
def Matrix4.mul (a b : Matrix4) : Matrix4 :=
  ⟨a.mulVec b.x, a.mulVec b.y, a.mulVec b.z, a.mulVec b.w⟩

/-- `Matrix4::from_nonuniform_scale(x, y, z)`. -/
def Matrix4.from_nonuniform_scale (x y z : ℚ) : Matrix4 :=
  ⟨⟨x, 0, 0, 0⟩, ⟨0, y, 0, 0⟩, ⟨0, 0, z, 0⟩, ⟨0, 0, 0, 1⟩⟩

/-- `Matrix4::from_translation([x, y, z])`. -/
def Matrix4.from_translation (x y z : ℚ) : Matrix4 :=
  ⟨⟨1, 0, 0, 0⟩, ⟨0, 1, 0, 0⟩, ⟨0, 0, 1, 0⟩, ⟨x, y, z, 1⟩⟩

/-- `Matrix4::from(m3)`: embed a `Matrix3` as the linear part of a `Matrix4`. -/
def Matrix4.fromMatrix3 (m : Matrix3) : Matrix4 :=
  ⟨⟨m.x.x, m.x.y, m.x.z, 0⟩, ⟨m.y.x, m.y.y, m.y.z, 0⟩,
   ⟨m.z.x, m.z.y, m.z.z, 0⟩, ⟨0, 0, 0, 1⟩⟩

/-- The uninterpreted trigonometric environment: models the `f32` `sin`/`cos`
used by `Matrix3::from_angle_{x,y,z}`. -/
structure Trig where
  cos : ℚ → ℚ
  sin : ℚ → ℚ

/-- `Matrix3::from_angle_x(Rad(r))`: columns `(1,0,0)`, `(0,c,s)`, `(0,-s,c)`. -/
def Matrix3.from_angle_x (T : Trig) (r : ℚ) : Matrix3 :=
  ⟨⟨1, 0, 0⟩, ⟨0, T.cos r, T.sin r⟩, ⟨0, -T.sin r, T.cos r⟩⟩

/-- `Matrix3::from_angle_y(Rad(r))`: columns `(c,0,-s)`, `(0,1,0)`, `(s,0,c)`. -/
def Matrix3.from_angle_y (T : Trig) (r : ℚ) : Matrix3 :=
  ⟨⟨T.cos r, 0, -T.sin r⟩, ⟨0, 1, 0⟩, ⟨T.sin r, 0, T.cos r⟩⟩

/-- `Matrix3::from_angle_z(Rad(r))`: columns `(c,s,0)`, `(-s,c,0)`, `(0,0,1)`. -/
def Matrix3.from_angle_z (T : Trig) (r : ℚ) : Matrix3 :=
  ⟨⟨T.cos r, T.sin r, 0⟩, ⟨-T.sin r, T.cos r, 0⟩, ⟨0, 0, 1⟩⟩

/-- `cgmath::Point3::from_homogeneous(v)`: `v.truncate() * (1 / v.w)`. -/
def Point3.from_homogeneous (v : Vector4) : Vector3 := v.truncate.smul (1 / v.w)

/-- The vertex record emitted by the generator (`vertex.rs`): position,
normal, planar texture coordinate. -/
@[ext]
structure Vertex where
  position : Vector3
  normal : Vector3
  texcoord : ℚ × ℚ
deriving DecidableEq, Repr, Inhabited

/-- The `CuboidBuilder`: wraps the accumulated `Matrix4`. -/
structure CuboidBuilder where
  matrix : Matrix4
deriving DecidableEq, Repr

/-- `CuboidBuilder::new` / `Default`: the identity transform. -/
def CuboidBuilder.new : CuboidBuilder := ⟨Matrix4.identity⟩

/-- `CuboidBuilder::scale`: `matrix = from_nonuniform_scale(x,y,z) * matrix`. -/
def CuboidBuilder.scale (b : CuboidBuilder) (x y z : ℚ) : CuboidBuilder :=
  ⟨(Matrix4.from_nonuniform_scale x y z).mul b.matrix⟩

/-- `CuboidBuilder::translate`: `matrix = from_translation([x,y,z]) * matrix`. -/
def CuboidBuilder.translate (b : CuboidBuilder) (x y z : ℚ) : CuboidBuilder :=
  ⟨(Matrix4.from_translation x y z).mul b.matrix⟩

/-- `CuboidBuilder::rotate_x`: `matrix = Matrix4::from(from_angle_x(r)) * matrix`. -/
def CuboidBuilder.rotate_x (T : Trig) (b : CuboidBuilder) (radians : ℚ) : CuboidBuilder :=
  ⟨(Matrix4.fromMatrix3 (Matrix3.from_angle_x T radians)).mul b.matrix⟩

/-- `CuboidBuilder::rotate_y`: `matrix = Matrix4::from(from_angle_y(r)) * matrix`. -/
def CuboidBuilder.rotate_y (T : Trig) (b : CuboidBuilder) (radians : ℚ) : CuboidBuilder :=
  ⟨(Matrix4.fromMatrix3 (Matrix3.from_angle_y T radians)).mul b.matrix⟩

/-- `CuboidBuilder::rotate_z`: `matrix = Matrix4::from(from_angle_z(r)) * matrix`. -/
def CuboidBuilder.rotate_z (T : Trig) (b : CuboidBuilder) (radians : ℚ) : CuboidBuilder :=
  ⟨(Matrix4.fromMatrix3 (Matrix3.from_angle_z T radians)).mul b.matrix⟩

/-- The per-face corner-index table of `build_vertices` (4 corner indices for
each of the 6 sides, in source order `-X, +X, -Y, +Y, -Z, +Z`). -/
def index_lut : List ℕ :=
  [0, 4, 1, 5,
   6, 2, 7, 3,
   0, 2, 4, 6,
   5, 7, 1, 3,
   2, 0, 3, 1,
   4, 6, 5, 7]

/-- The triangle-vertex index table of `build_vertices`: two triangles over the
four corners of a quad. -/
def poly_lut : List ℕ := [0, 1, 2, 2, 1, 3]

/-- The corner index looked up for side `side`, triangle-vertex `vert`:
`index_lut[poly_lut[vert] + side * 4]`.  Rust indexing panics out of bounds;
`getD` totalises it, and the bounds theorem below shows every access made by
the generator is in bounds (so the default is never taken). -/
def cornerIndex (side vert : ℕ) : ℕ :=
  index_lut.getD (poly_lut.getD vert 0 + side * 4) 0

/-- The homogeneous local corner position `vpos` of `build_vertices`: each
spatial component decodes a bit of the corner index into `±0.5`, and `w = 1`.
The Rust subtraction happens in `i32` before the `f32` cast; casting first and
subtracting in `ℚ` is the same value. -/
def vpos (side vert : ℕ) : Vector4 :=
  let coord := cornerIndex side vert
  ⟨(((coord &&& 2 : ℕ) : ℚ) - 1) * 0.5,
   (((coord &&& 1 : ℕ) : ℚ) * 2 - 1) * 0.5,
   ((((coord >>> 1) &&& 2 : ℕ) : ℚ) - 1) * 0.5,
   1⟩

/-- `normal[side / 2] = value`, the single mutation performed on the zero
vector when building a side normal.  `side / 2` is always `0`, `1` or `2`
(see the bounds theorem); the catch-all branch models the impossible case. -/
def setComp (v : Vector3) (i : ℕ) (q : ℚ) : Vector3 :=
  match i with
  | 0 => { v with x := q }
  | 1 => { v with y := q }
  | 2 => { v with z := q }
  | _ => v

/-- The local side normal of `build_vertices`: zero vector with component
`side / 2` set to `((side % 2) * 2) - 1`. -/
def sideNormal (side : ℕ) : Vector3 :=
  setComp ⟨0, 0, 0⟩ (side / 2) ((((side % 2) * 2 : ℕ) : ℚ) - 1)

/-- The texture coordinate of triangle-vertex `vert`:
`[poly_lut[vert] % 2, poly_lut[vert] / 2]`. -/
def texcoordOf (vert : ℕ) : ℚ × ℚ :=
  (((poly_lut.getD vert 0 % 2 : ℕ) : ℚ), ((poly_lut.getD vert 0 / 2 : ℕ) : ℚ))

/-- The 3×3 linear part of the accumulated matrix:
`Matrix3::from_cols(m.x.truncate(), m.y.truncate(), m.z.truncate())`. -/
def linearPart (m : Matrix4) : Matrix3 :=
  Matrix3.from_cols m.x.truncate m.y.truncate m.z.truncate

/-- The normal transformation matrix of `build_vertices`:
`linear_part.invert().unwrap_or(identity).transpose()`. -/
def normalMatrix (m : Matrix4) : Matrix3 :=
  ((linearPart m).invert.getD Matrix3.identity).transpose

/-- `CuboidBuilder::build_vertices`: 6 sides × 6 triangle-vertices, emitted in
source order, always `Ok`. -/
def CuboidBuilder.build_vertices (b : CuboidBuilder) :
    Except ShapeCreationError (List Vertex) :=
  let nm := normalMatrix b.matrix
  Except.ok <|
    (List.range 6).flatMap fun side =>
      (List.range 6).map fun vert =>
        { position := Point3.from_homogeneous (b.matrix.mulVec (vpos side vert))
          normal := (nm.mulVec (sideNormal side)).normalize
          texcoord := texcoordOf vert }

/-- The vertex list carried by the always-`Ok` result of `build_vertices`. -/
def CuboidBuilder.builtList (b : CuboidBuilder) : List Vertex :=
  match b.build_vertices with
  | .ok vs => vs
  | .error _ => []

/-! Spec-side definitions, written from the spec's words, to be compared with
the source-derived definitions above. -/

/-- Spec-side definition: the local per-face normal is the axis-aligned unit
vector whose axis is `face / 2` and whose sign is given by `face % 2`
(`0` ↦ negative, `1` ↦ positive, matching the source's face order
`-X, +X, -Y, +Y, -Z, +Z`). -/
def specLocalNormal (face : ℕ) : Vector3 :=
  match face / 2, (if face % 2 = 0 then (-1 : ℚ) else 1) with
  | 0, sign => ⟨sign, 0, 0⟩
  | 1, sign => ⟨0, sign, 0⟩
  | 2, sign => ⟨0, 0, sign⟩
  | _, _ => ⟨0, 0, 0⟩

/-- Spec-side definition: a triangle `(v0, v1, v2)` with stored vertex normal
`n0` is counter-clockwise as seen from outside when the geometric normal from
the cross product of its edges, evaluated against an eye point placed outside
the face along the vertex normal, faces the eye (all three vertices on the
non-positive side). -/
@[reducible]
def ccwFromOutside (v0 v1 v2 n0 : Vector3) : Prop :=
  (((v1.sub v0).cross (v2.sub v0)).dot (v0.sub (v0.add n0)) ≤ 0) ∧
  (((v1.sub v0).cross (v2.sub v0)).dot (v1.sub (v0.add n0)) ≤ 0) ∧
  (((v1.sub v0).cross (v2.sub v0)).dot (v2.sub (v0.add n0)) ≤ 0)

/-- Spec-side definition: the four texture coordinates a face must cover. -/
def quadTexcoords : List (ℚ × ℚ) := [(0, 0), (0, 1), (1, 0), (1, 1)]

/-- The texture coordinates of the whole sequence depend only on each
vertex's index within its face's quad: the same 6-entry pattern, once per
side, with no dependence on the builder's matrix. -/
def texcoordSequence : List (ℚ × ℚ) :=
  (List.range 6).flatMap fun _side => (List.range 6).map texcoordOf

/-! Helper lemmas shared by the claim theorems. -/

theorem build_vertices_eq_ok (b : CuboidBuilder) :
    b.build_vertices = Except.ok b.builtList := rfl

theorem mul_invertedOf (m : Matrix3) (h : m.determinant ≠ 0) :
    m.mul m.invertedOf = Matrix3.identity := by
  ext <;>
    simp only [Matrix3.mul, Matrix3.mulVec, Matrix3.invertedOf, Matrix3.transpose,
      Matrix3.from_cols, Vector3.smul, Vector3.add, Vector3.cross, Matrix3.identity] <;>
    field_simp [h] <;>
    (try simp only [Matrix3.determinant, Vector3.cross, Vector3.dot]) <;>
    ring

theorem invertedOf_mul (m : Matrix3) (h : m.determinant ≠ 0) :
    m.invertedOf.mul m = Matrix3.identity := by
  ext <;>
    simp only [Matrix3.mul, Matrix3.mulVec, Matrix3.invertedOf, Matrix3.transpose,
      Matrix3.from_cols, Vector3.smul, Vector3.add, Vector3.cross, Matrix3.identity] <;>
    field_simp [h] <;>
    (try simp only [Matrix3.determinant, Vector3.cross, Vector3.dot]) <;>
    ring

theorem normalMatrix_of_invertible (m : Matrix4) (h : (linearPart m).determinant ≠ 0) :
    normalMatrix m = (linearPart m).invertedOf.transpose := by
  simp [normalMatrix, Matrix3.invert, h]

theorem normalMatrix_of_singular (m : Matrix4) (h : (linearPart m).determinant = 0) :
    normalMatrix m = Matrix3.identity := by
  simp [normalMatrix, Matrix3.invert, h, Matrix3.transpose, Matrix3.identity]

theorem builtList_map_normal (b : CuboidBuilder) :
    b.builtList.map Vertex.normal =
      (List.range 6).flatMap fun side => (List.range 6).map fun _vert =>
        ((normalMatrix b.matrix).mulVec (sideNormal side)).normalize := rfl

/-! Claim theorems. -/

/-- C1: for every builder state, `build_vertices` succeeds with exactly 36
vertices (6 faces × 6 triangle-vertices, i.e. 12 triangles), each position
being the face corner's local coordinate — `±0.5` on every axis, extended to
a homogeneous 4-vector with `w = 1` — multiplied by the accumulated matrix
and divided by the resulting `w` component. -/
theorem build_vertices_positions_are_transformed_corners (b : CuboidBuilder) :
    b.build_vertices = Except.ok b.builtList ∧
    b.builtList.length = 36 ∧
    b.builtList.map Vertex.position =
      ((List.range 6).flatMap fun side => (List.range 6).map fun vert =>
        Point3.from_homogeneous (b.matrix.mulVec (vpos side vert))) ∧
    (∀ v : Vector4, Point3.from_homogeneous v = ⟨v.x / v.w, v.y / v.w, v.z / v.w⟩) ∧
    (∀ side vert : Fin 6,
      ratAbs (vpos side.val vert.val).x = 0.5 ∧ ratAbs (vpos side.val vert.val).y = 0.5 ∧
      ratAbs (vpos side.val vert.val).z = 0.5 ∧ (vpos side.val vert.val).w = 1) := by
  refine ⟨rfl, rfl, rfl, ?_, by with_unfolding_all decide⟩
  intro v
  ext <;>
    simp [Point3.from_homogeneous, Vector4.truncate, Vector3.smul, div_eq_mul_inv, one_div]

/-- C4: for every builder state, the emitted texture coordinates are the fixed
per-quad pattern `texcoordSequence` (a function of the triangle-vertex index
alone, independent of the transform); each face's 6 vertices cover all four
corners `(0,0)`, `(0,1)`, `(1,0)`, `(1,1)`; and over the whole sequence each
component only takes the values `0` and `1`, with both extremes attained. -/
theorem build_vertices_texcoords_cover_unit_quad (b : CuboidBuilder) :
    b.builtList.map Vertex.texcoord = texcoordSequence ∧
    (∀ side : Fin 6, ∀ j : Fin 4,
      quadTexcoords.getD j.val (0, 0) ∈ (texcoordSequence.drop (6 * side.val)).take 6) ∧
    (∀ i : Fin 36,
      ((texcoordSequence.getD i.val (0, 0)).1 = 0 ∨ (texcoordSequence.getD i.val (0, 0)).1 = 1) ∧
      ((texcoordSequence.getD i.val (0, 0)).2 = 0 ∨ (texcoordSequence.getD i.val (0, 0)).2 = 1)) ∧
    (0, 0) ∈ texcoordSequence ∧ (1, 1) ∈ texcoordSequence := by
  exact ⟨rfl, by decide, by decide, by decide, by decide⟩

/-- C6: a new builder starts with the identity matrix, and each of the five
transform operations left-multiplies its elementary affine matrix onto the
accumulated matrix (`new = op * existing`) and returns the updated builder;
every operation is a total function of its rational inputs (it cannot fail).
The last two conjuncts pin down the elementary matrices' action on a
homogeneous vector: component-wise scaling, and translation by `w`-scaled
offsets. -/
theorem builder_ops_premultiply_elementary_matrices
    (T : Trig) (b : CuboidBuilder) (x y z r : ℚ) :
    CuboidBuilder.new.matrix = Matrix4.identity ∧
    (b.scale x y z).matrix = (Matrix4.from_nonuniform_scale x y z).mul b.matrix ∧
    (b.translate x y z).matrix = (Matrix4.from_translation x y z).mul b.matrix ∧
    (CuboidBuilder.rotate_x T b r).matrix =
      (Matrix4.fromMatrix3 (Matrix3.from_angle_x T r)).mul b.matrix ∧
    (CuboidBuilder.rotate_y T b r).matrix =
      (Matrix4.fromMatrix3 (Matrix3.from_angle_y T r)).mul b.matrix ∧
    (CuboidBuilder.rotate_z T b r).matrix =
      (Matrix4.fromMatrix3 (Matrix3.from_angle_z T r)).mul b.matrix ∧
    (∀ v : Vector4, (Matrix4.from_nonuniform_scale x y z).mulVec v =
      ⟨x * v.x, y * v.y, z * v.z, v.w⟩) ∧
    (∀ v : Vector4, (Matrix4.from_translation x y z).mulVec v =
      ⟨v.x + x * v.w, v.y + y * v.w, v.z + z * v.w, v.w⟩) := by
  refine ⟨rfl, rfl, rfl, rfl, rfl, rfl, ?_, ?_⟩ <;>
    (intro v; ext <;> simp [Matrix4.mulVec, Vector4.smul, Vector4.add,
      Matrix4.from_nonuniform_scale, Matrix4.from_translation])

/-- C7: for every builder state, the vertex-only generation path returns a
successful (`Ok`) result; it has no failure mode.  (In this exact model every
rational matrix entry is finite, which is the claim's precondition.) -/
theorem build_vertices_always_ok (b : CuboidBuilder) :
    ∃ vs, b.build_vertices = Except.ok vs :=
  ⟨b.builtList, build_vertices_eq_ok b⟩

/-- C10: every table and vector index used inside `build_vertices` is in
bounds: `poly_lut` has 6 entries all below 4, so it is only indexed with
`0..5`; `index_lut` has 24 entries and is only indexed with
`poly_lut[vert] + side*4 < 24`; every decoded corner index is below 8; and
the normal-vector write index `side / 2` is below 3. -/
theorem build_vertices_indices_in_bounds :
    poly_lut.length = 6 ∧
    index_lut.length = 24 ∧
    (∀ vert : Fin 6, poly_lut.getD vert.val 0 < 4) ∧
    (∀ side : Fin 6, ∀ vert : Fin 6, poly_lut.getD vert.val 0 + side.val * 4 < 24) ∧
    (∀ i : Fin 24, index_lut.getD i.val 0 < 8) ∧
    (∀ side : Fin 6, ∀ vert : Fin 6, cornerIndex side.val vert.val < 8) ∧
    (∀ side : Fin 6, side.val / 2 < 3) := by
  decide

/-- C2: for every builder state whose 3×3 linear part is invertible
(nonzero determinant), each emitted vertex normal is the local per-face
normal — the axis-aligned unit vector with axis `face / 2` and sign given by
`face % 2` — transformed by the transpose of a genuine two-sided inverse of
the linear part (the inverse-transpose) and then re-normalized. -/
theorem build_vertices_normals_use_inverse_transpose (b : CuboidBuilder)
    (h : (linearPart b.matrix).determinant ≠ 0) :
    ∃ n : Matrix3,
      (linearPart b.matrix).mul n = Matrix3.identity ∧
      n.mul (linearPart b.matrix) = Matrix3.identity ∧
      (∀ side : Fin 6, sideNormal side.val = specLocalNormal side.val) ∧
      b.builtList.map Vertex.normal =
        ((List.range 6).flatMap fun side => (List.range 6).map fun _vert =>
          (n.transpose.mulVec (sideNormal side)).normalize) := by
  refine ⟨(linearPart b.matrix).invertedOf, mul_invertedOf _ h, invertedOf_mul _ h,
    by with_unfolding_all decide, ?_⟩
  rw [builtList_map_normal, normalMatrix_of_invertible b.matrix h]

/-- C2 witness: the identity builder has an invertible linear part, and the
theorem's conclusion holds there. -/
theorem build_vertices_normals_use_inverse_transpose_witness :
    (linearPart CuboidBuilder.new.matrix).determinant ≠ 0 ∧
    ∃ n : Matrix3,
      (linearPart CuboidBuilder.new.matrix).mul n = Matrix3.identity ∧
      n.mul (linearPart CuboidBuilder.new.matrix) = Matrix3.identity ∧
      (∀ side : Fin 6, sideNormal side.val = specLocalNormal side.val) ∧
      CuboidBuilder.new.builtList.map Vertex.normal =
        ((List.range 6).flatMap fun side => (List.range 6).map fun _vert =>
          (n.transpose.mulVec (sideNormal side)).normalize) :=
  ⟨by with_unfolding_all decide,
   build_vertices_normals_use_inverse_transpose CuboidBuilder.new
     (by with_unfolding_all decide)⟩

/-- C3: for every builder state whose 3×3 linear part is singular (zero
determinant), `build_vertices` does not fail: the normal transform falls back
to the identity matrix and a full 36-vertex sequence is still returned
successfully. -/
theorem build_vertices_singular_falls_back_to_identity (b : CuboidBuilder)
    (h : (linearPart b.matrix).determinant = 0) :
    normalMatrix b.matrix = Matrix3.identity ∧
    b.build_vertices = Except.ok b.builtList ∧
    b.builtList.length = 36 :=
  ⟨normalMatrix_of_singular b.matrix h, rfl, rfl⟩

/-- C3 witness: a builder scaled to zero on every axis has a singular linear
part, and the theorem's conclusion holds there. -/
theorem build_vertices_singular_falls_back_to_identity_witness :
    (linearPart (CuboidBuilder.new.scale 0 0 0).matrix).determinant = 0 ∧
    (normalMatrix (CuboidBuilder.new.scale 0 0 0).matrix = Matrix3.identity ∧
     (CuboidBuilder.new.scale 0 0 0).build_vertices =
       Except.ok (CuboidBuilder.new.scale 0 0 0).builtList ∧
     (CuboidBuilder.new.scale 0 0 0).builtList.length = 36) :=
  ⟨by with_unfolding_all decide,
   build_vertices_singular_falls_back_to_identity (CuboidBuilder.new.scale 0 0 0)
     (by with_unfolding_all decide)⟩

/-- C5: for the identity-transform builder, each of the 12 consecutive vertex
triples of `build_vertices` is counter-clockwise when viewed from outside the
cube: the cross-product geometric normal, tested against an eye point placed
outside the face along the stored vertex normal, reports front-facing for all
three vertices. -/
theorem identity_cuboid_triangles_are_ccw :
    CuboidBuilder.new.builtList.length = 36 ∧
    ∀ k : Fin 12,
      ccwFromOutside
        (CuboidBuilder.new.builtList.getD (3 * k.val) default).position
        (CuboidBuilder.new.builtList.getD (3 * k.val + 1) default).position
        (CuboidBuilder.new.builtList.getD (3 * k.val + 2) default).position
        (CuboidBuilder.new.builtList.getD (3 * k.val) default).normal := by
  with_unfolding_all decide

/-- C8: for the identity-transform builder, every one of the 36 emitted
vertices has position components of absolute value exactly `0.5` on all three
axes. -/
theorem identity_cuboid_positions_have_half_components :
    CuboidBuilder.new.builtList.length = 36 ∧
    ∀ i : Fin 36,
      ratAbs (CuboidBuilder.new.builtList.getD i.val default).position.x = 0.5 ∧
      ratAbs (CuboidBuilder.new.builtList.getD i.val default).position.y = 0.5 ∧
      ratAbs (CuboidBuilder.new.builtList.getD i.val default).position.z = 0.5 := by
  with_unfolding_all decide

/-- C9: transform composition is order-sensitive: `scale(2,1,1)` followed by
`translate(1,0,0)` produces a vertex sequence that differs from
`translate(1,0,0)` followed by `scale(2,1,1)` — at least one vertex position
differs. -/
theorem transform_composition_order_matters :
    ((CuboidBuilder.new.scale 2 1 1).translate 1 0 0).builtList.map Vertex.position ≠
      ((CuboidBuilder.new.translate 1 0 0).scale 2 1 1).builtList.map Vertex.position ∧
    ∃ i : Fin 36,
      (((CuboidBuilder.new.scale 2 1 1).translate 1 0 0).builtList.getD i.val default).position ≠
      (((CuboidBuilder.new.translate 1 0 0).scale 2 1 1).builtList.getD i.val default).position := by
  with_unfolding_all decide

end GliumShapes
